import Mathlib

/-!
Verification development for the `apns` Go package (send-side client,
`client.go`).  The client's data model and operations are shallowly
embedded: the sent-window buffer becomes a Lean list (front = oldest),
the 32-bit identifier counter becomes a `Nat` reduced modulo `2^32`
where the Go `uint32` arithmetic can overflow, and the effect of
`Client.Send` / `Client.readErrs` on the client's observable state is
modelled as explicit state passing.  Transport outcomes (each
`Conn.Write` succeeding or failing) are supplied as an explicit oracle
list of booleans, and the single `Conn.Read` of the error-reader is
supplied as an optional 6-byte packet (`none` = transport read error).
-/

namespace Apns

/-- Modulus of Go's `uint32` arithmetic (`2^32`). -/
def U32 : Nat := 4294967296

/-- Modelled from the spec: a device-token character is a hexadecimal
digit; the token validation lives in the notification encoder, whose
source file is not under `src/`.  Characters are byte values. -/
def isHexDigit (b : Nat) : Bool :=
  (48 ≤ b && b ≤ 57) || (97 ≤ b && b ≤ 102) || (65 ≤ b && b ≤ 70)

/-- Modelled from the spec: numeric value of a hexadecimal digit byte. -/
def hexVal (b : Nat) : Nat :=
  if 48 ≤ b && b ≤ 57 then b - 48
  else if 97 ≤ b && b ≤ 102 then b - 87
  else if 65 ≤ b && b ≤ 70 then b - 55
  else 0

/-- Modelled from the spec: decode a hex string (as byte values) into
bytes, two characters per byte. -/
def hexDecode : List Nat → List Nat
  | a :: b :: rest => (hexVal a * 16 + hexVal b) :: hexDecode rest
  | _ => []

/-- The transmission unit (`Notification` in the Go source).  Strings
are embedded as byte lists; the payload appears through the capability
the spec assumes, namely its serialized JSON bytes. -/
structure Notification where
  DeviceToken : List Nat
  Identifier : Nat
  ID : List Nat
  Expiration : Nat
  Priority : Nat
  PayloadJSON : List Nat
deriving DecidableEq

/-- Big-endian 4-byte encoding of a 32-bit value. -/
def be4 (n : Nat) : List Nat :=
  [n / 16777216 % 256, n / 65536 % 256, n / 256 % 256, n % 256]

/-- Big-endian 2-byte encoding of a 16-bit value. -/
def be2 (n : Nat) : List Nat := [n / 256 % 256, n % 256]

/-- One item of the APNS v2 frame: item id, 2-byte length, data. -/
def frameItem (iid : Nat) (data : List Nat) : List Nat :=
  iid :: (be2 data.length ++ data)

/-- Modelled from the spec: `Notification.ToBinary` (§4.2), whose
source file is not under `src/`.  Validates the device token (64 hex
characters), the serialized payload size (≤ 2048 bytes) and the
priority (5 or 10); on success builds the v2 enhanced frame
`0x02 | frame length (4 BE) | items 1..5`. -/
def ToBinary (n : Notification) : Option (List Nat) :=
  if ¬(n.DeviceToken.length = 64 ∧ n.DeviceToken.all isHexDigit) then none
  else if 2048 < n.PayloadJSON.length then none
  else if ¬(n.Priority = 5 ∨ n.Priority = 10) then none
  else
    let items :=
      frameItem 1 (hexDecode n.DeviceToken) ++
      frameItem 2 n.PayloadJSON ++
      frameItem 3 (be4 n.Identifier) ++
      frameItem 4 (be4 n.Expiration) ++
      frameItem 5 [n.Priority]
    some (2 :: (be4 items.length ++ items))

/-- The decoded APNS error-response (`Error` in the Go source). -/
structure Error where
  Status : Nat
  Identifier : Nat
deriving DecidableEq

/-- Modelled from the spec: `NewError` (§4.3), whose source file is not
under `src/`.  Decodes the 6-byte error-response packet
`command(1) | status(1) | identifier(4 BE)`. -/
def NewError (p : List Nat) : Error :=
  { Status := p.getD 1 0
    Identifier :=
      p.getD 2 0 * 16777216 + p.getD 3 0 * 65536 + p.getD 4 0 * 256 + p.getD 5 0 }

/-- The pair delivered on the failed-notifications channel
(`NotificationResult` in the Go source). -/
abbrev NotificationResult := Notification × Error

/-- `buffer.Add` from `client.go`: push the value at the back, and if
the length now exceeds the size bound remove the front (oldest). -/
def bufferAdd (size : Nat) (l : List α) (v : α) : List α :=
  if size < (l ++ [v]).length then (l ++ [v]).tail else l ++ [v]

/-- Observable state of a `Client`.  `sent` is the sent-window buffer
(front = oldest, back = newest); `id` is the identifier counter
(`uint32`); `written` is the trace of notifications whose frame write
completed successfully, in wire order; `failed` is the trace of
reports offered on the `FailedNotifs` channel; `reconnects` counts
reconnection triggers. -/
structure ClientState where
  sent : List Notification
  id : Nat
  written : List Notification
  failed : List NotificationResult
  reconnects : Nat
deriving DecidableEq

/-- `newClientWithConn` from `client.go`: empty window of capacity
1000, identifier counter initialized to 1. -/
def initClient : ClientState :=
  { sent := [], id := 1, written := [], failed := [], reconnects := 0 }

/-- The identifier `Client.Send` puts on the notification: the counter
value when the submitted identifier is zero, the submitted identifier
otherwise. -/
def assignedId (cid : Nat) (n : Notification) : Nat :=
  if n.Identifier = 0 then cid else n.Identifier

/-- The counter update in `Client.Send`: `c.id++` when the submitted
identifier is zero, `c.id = n.Identifier + 1` when the submitted
identifier exceeds the counter, unchanged otherwise (all in `uint32`
arithmetic). -/
def nextId (cid : Nat) (nIdent : Nat) : Nat :=
  if nIdent = 0 then (cid + 1) % U32
  else if cid < nIdent then (nIdent + 1) % U32
  else cid

/-- `Client.Send` from `client.go`.  Steps, in source order: assign the
identifier under the counter mutex; encode with `ToBinary`, returning
on failure (only a log line); write the frame — on write failure
trigger `reconnect` and re-enter `Send` with the same (now
identifier-carrying) notification; on write success `sent.Add` the
notification.  The boolean list `w` is the oracle of successive write
outcomes; an exhausted oracle leaves the remaining attempt pending. -/
def send (c : ClientState) (n : Notification) (w : List Bool) : ClientState :=
  match ToBinary { n with Identifier := assignedId c.id n }, w with
    | none, _ => { c with id := nextId c.id n.Identifier }
    | some _, [] => { c with id := nextId c.id n.Identifier }
    | some _, true :: _ =>
      { c with id := nextId c.id n.Identifier
               sent := bufferAdd 1000 c.sent { n with Identifier := assignedId c.id n }
               written := c.written ++ [{ n with Identifier := assignedId c.id n }] }
    | some _, false :: rest =>
      send { c with id := nextId c.id n.Identifier, reconnects := c.reconnects + 1 }
        { n with Identifier := assignedId c.id n } rest

/-- A sequence of `Send` calls, each with its own write-outcome oracle. -/
def sendAll : ClientState → List (Notification × List Bool) → ClientState
  | c, [] => c
  | c, (n, w) :: rest => sendAll (send c n w) rest

/-- The newest-to-oldest scan of `Client.readErrs`: find the newest
(backmost) window entry whose identifier matches, returning the window
split as (entries before it, the match, entries after it).  A match
found deeper in the tail (closer to the back) takes precedence, which
is exactly the back-to-front cursor walk of the source. -/
def splitAtNewestMatch : List Notification → Nat → Option (List Notification × Notification × List Notification)
  | [], _ => none
  | n :: rest, ident =>
    match splitAtNewestMatch rest ident with
    | some (pre, m, suf) => some (n :: pre, m, suf)
    | none => if n.Identifier = ident then some ([], n, rest) else none

/-- `Client.readErrs` from `client.go`.  `r` is the outcome of the
single 6-byte read (`none` = transport error).  Reconnection is
triggered in both cases.  On a decoded error-response the window is
scanned from newest to oldest; the match, if any, is reported on the
failed-notifications channel and removed, and every entry after it is
handed back to `Send` (returned here as the second component, in
window order, oldest survivor first). -/
def readErrs (c : ClientState) (r : Option (List Nat)) : ClientState × List Notification :=
  match r with
  | none => ({ c with reconnects := c.reconnects + 1 }, [])
  | some p =>
    match splitAtNewestMatch c.sent (NewError p).Identifier with
    | none => ({ c with reconnects := c.reconnects + 1 }, [])
    | some (pre, m, suf) =>
      ({ c with reconnects := c.reconnects + 1
                sent := pre ++ suf
                failed := c.failed ++ [(m, NewError p)] }, suf)

/-- A valid 64-character device token (64 times the byte of the
character a), used for concrete evaluations. -/
def tok : List Nat := List.replicate 64 97

/-- A concrete well-formed notification with the given identifier. -/
def mkNotif (ident : Nat) : Notification :=
  { DeviceToken := tok, Identifier := ident, ID := [], Expiration := 0,
    Priority := 10, PayloadJSON := [123, 125] }

/-- A concrete notification whose encoding fails: its priority is
neither 5 nor 10. -/
def nBadPrio : Notification :=
  { DeviceToken := tok, Identifier := 0, ID := [], Expiration := 0,
    Priority := 7, PayloadJSON := [123, 125] }

/-- A concrete client state whose window holds notifications 1, 2, 3. -/
def c1State : ClientState :=
  { sent := [mkNotif 1, mkNotif 2, mkNotif 3], id := 4,
    written := [mkNotif 1, mkNotif 2, mkNotif 3], failed := [], reconnects := 0 }

/-- Submission discipline under which written identifiers are strictly
increasing: each submitted identifier is zero (auto-assignment) or
strictly exceeds the counter at its submission time, and the counter
never reaches the 32-bit wraparound.  The first argument tracks the
counter. -/
def monotoneInputs : Nat → List (Notification × List Bool) → Bool
  | _, [] => true
  | cid, (n, _) :: rest =>
    if n.Identifier = 0 then decide (cid + 1 < U32) && monotoneInputs (cid + 1) rest
    else decide (cid < n.Identifier) && decide (n.Identifier + 1 < U32) &&
      monotoneInputs (n.Identifier + 1) rest

/-- The 32-bit identifier counter never wraps along the given
submissions: every counter increment stays below `2^32`.  The first
argument tracks the counter. -/
def noWrap32 : Nat → List (Notification × List Bool) → Bool
  | _, [] => true
  | cid, (n, _) :: rest =>
    if n.Identifier = 0 then decide (cid + 1 < U32) && noWrap32 (cid + 1) rest
    else if cid < n.Identifier then decide (n.Identifier + 1 < U32) && noWrap32 (n.Identifier + 1) rest
    else noWrap32 cid rest

/-- Re-assigning the identifier a non-zero notification already
carries changes nothing: a retried `Send` keeps the identifier. -/
lemma assignedId_of_ne (cid : Nat) (n : Notification) (h : n.Identifier ≠ 0) :
    assignedId cid n = n.Identifier := by
  simp [assignedId, h]

lemma setId_self (n : Notification) : { n with Identifier := n.Identifier } = n := rfl

/-- The counter value `Send` leaves behind is a fixed point of the
retry path: re-running the assignment with the already-assigned
identifier does not move the counter again. -/
lemma nextId_fix (cid : Nat) (n : Notification) (h : assignedId cid n ≠ 0) :
    nextId (nextId cid n.Identifier) (assignedId cid n) = nextId cid n.Identifier := by
  by_cases h0 : n.Identifier = 0
  · have hcid : cid ≠ 0 := by simpa [assignedId, h0] using h
    simp only [assignedId, h0, if_pos, nextId, if_neg hcid]
    split <;> rfl
  · simp only [assignedId, if_neg h0, nextId, if_neg h0]
    by_cases hlt : cid < n.Identifier
    · simp only [if_pos hlt]
      split <;> rfl
    · simp only [if_neg hlt, if_neg hlt]

/-- `Send` never touches the failed-notifications channel (the source
only logs on encoding failure and retries on write failure). -/
lemma send_failed (c : ClientState) (n : Notification) (w : List Bool) :
    (send c n w).failed = c.failed := by
  induction w generalizing c n with
  | nil =>
    unfold send
    cases hb : ToBinary { n with Identifier := assignedId c.id n } with
    | none => rfl
    | some bs => rfl
  | cons b rest ih =>
    unfold send
    cases hb : ToBinary { n with Identifier := assignedId c.id n } with
    | none => rfl
    | some bs =>
      cases b with
      | true => rfl
      | false => exact ih _ _

/-- `Send` leaves the counter at `nextId`, across any number of write
retries, provided the assigned identifier is non-zero (true whenever
the counter is at least 1, which holds in every reachable state short
of 32-bit wraparound). -/
lemma send_id (c : ClientState) (n : Notification) (w : List Bool)
    (h : assignedId c.id n ≠ 0) :
    (send c n w).id = nextId c.id n.Identifier := by
  induction w generalizing c n with
  | nil =>
    unfold send
    cases hb : ToBinary { n with Identifier := assignedId c.id n } with
    | none => rfl
    | some bs => rfl
  | cons b rest ih =>
    unfold send
    cases hb : ToBinary { n with Identifier := assignedId c.id n } with
    | none => rfl
    | some bs =>
      cases b with
      | true => rfl
      | false =>
        have h2 : assignedId (nextId c.id n.Identifier) { n with Identifier := assignedId c.id n } =
            assignedId c.id n := assignedId_of_ne _ _ h
        have hrec := ih { c with id := nextId c.id n.Identifier, reconnects := c.reconnects + 1 }
          { n with Identifier := assignedId c.id n } (by simpa [h2] using h)
        rw [hrec]
        simpa [h2] using nextId_fix c.id n h

/-- `Send` either leaves the window and the write trace unchanged (the
encoding failed, or every write attempt failed), or appends the
identifier-assigned notification to both, the window through
`buffer.Add`. -/
lemma send_write_cases (c : ClientState) (n : Notification) (w : List Bool)
    (h : assignedId c.id n ≠ 0) :
    ((send c n w).sent = c.sent ∧ (send c n w).written = c.written) ∨
    ((send c n w).sent = bufferAdd 1000 c.sent { n with Identifier := assignedId c.id n } ∧
     (send c n w).written = c.written ++ [{ n with Identifier := assignedId c.id n }]) := by
  induction w generalizing c n with
  | nil =>
    unfold send
    cases hb : ToBinary { n with Identifier := assignedId c.id n } with
    | none => exact Or.inl ⟨rfl, rfl⟩
    | some bs => exact Or.inl ⟨rfl, rfl⟩
  | cons b rest ih =>
    unfold send
    cases hb : ToBinary { n with Identifier := assignedId c.id n } with
    | none => exact Or.inl ⟨rfl, rfl⟩
    | some bs =>
      cases b with
      | true => exact Or.inr ⟨rfl, rfl⟩
      | false =>
        have h2 : assignedId (nextId c.id n.Identifier) { n with Identifier := assignedId c.id n } =
            assignedId c.id n := assignedId_of_ne _ _ h
        have hrec := ih { c with id := nextId c.id n.Identifier, reconnects := c.reconnects + 1 }
          { n with Identifier := assignedId c.id n } (by simpa [h2] using h)
        simpa [h2] using hrec

/-- Everything in the buffer after an `Add` was in the buffer before or
is the added value. -/
lemma mem_bufferAdd {α : Type _} (s : Nat) (l : List α) (v x : α)
    (h : x ∈ bufferAdd s l v) : x ∈ l ∨ x = v := by
  unfold bufferAdd at h
  split at h
  · have := List.mem_of_mem_tail h
    simpa using this
  · simpa using h

/-- `buffer.Add` never grows the buffer past its size bound. -/
lemma length_bufferAdd_le {α : Type _} (s : Nat) (l : List α) (v : α)
    (h : l.length ≤ s) : (bufferAdd s l v).length ≤ s := by
  unfold bufferAdd
  split <;> rename_i hs <;> simp at hs ⊢ <;> omega

/-- The newest-to-oldest scan finds nothing exactly when no window
entry carries the identifier. -/
lemma splitAtNewestMatch_eq_none (l : List Notification) (ident : Nat) :
    splitAtNewestMatch l ident = none ↔ ∀ x ∈ l, x.Identifier ≠ ident := by
  induction l with
  | nil => simp [splitAtNewestMatch]
  | cons n rest ih =>
    unfold splitAtNewestMatch
    cases hr : splitAtNewestMatch rest ident with
    | some q =>
      constructor
      · intro hc; exact absurd hc (by simp)
      · intro hall
        have hnone : splitAtNewestMatch rest ident = none :=
          ih.mpr fun x hx => hall x (by simp [hx])
        rw [hr] at hnone; exact absurd hnone (by simp)
    | none =>
      have hrest := ih.mp hr
      constructor
      · intro hc x hx
        by_cases hn : n.Identifier = ident
        · simp [hn] at hc
        · rcases List.mem_cons.mp hx with h1 | h2
          · subst h1; exact hn
          · exact hrest x h2
      · intro hall
        have hn : n.Identifier ≠ ident := hall n (by simp)
        simp [hn]

/-- What a successful newest-to-oldest scan returns: the window splits
around the removed entry, that entry carries the matching identifier,
and nothing after it (newer than it) matches — it is the newest match. -/
lemma splitAtNewestMatch_spec (l : List Notification) (ident : Nat)
    (pre : List Notification) (m : Notification) (suf : List Notification)
    (h : splitAtNewestMatch l ident = some (pre, m, suf)) :
    l = pre ++ m :: suf ∧ m.Identifier = ident ∧ ∀ x ∈ suf, x.Identifier ≠ ident := by
  induction l generalizing pre m suf with
  | nil => simp [splitAtNewestMatch] at h
  | cons n rest ih =>
    unfold splitAtNewestMatch at h
    cases hr : splitAtNewestMatch rest ident with
    | some q =>
      obtain ⟨p, mm, s⟩ := q
      rw [hr] at h
      simp only [Option.some.injEq, Prod.mk.injEq] at h
      obtain ⟨h1, h2, h3⟩ := h
      obtain ⟨e1, e2, e3⟩ := ih p mm s hr
      subst h1 h2 h3
      exact ⟨by simp [e1], e2, e3⟩
    | none =>
      rw [hr] at h
      by_cases hn : n.Identifier = ident
      · rw [if_pos hn] at h
        simp only [Option.some.injEq, Prod.mk.injEq] at h
        obtain ⟨h1, h2, h3⟩ := h
        subst h1; subst h2; subst h3
        exact ⟨rfl, hn, (splitAtNewestMatch_eq_none rest ident).mp hr⟩
      · rw [if_neg hn] at h
        exact absurd h (by simp)

/-- When the encoder rejects the notification, `Send` only advances the
counter and returns: the source merely logs the error. -/
lemma send_encodeFail (c : ClientState) (n : Notification) (w : List Bool)
    (h : ToBinary { n with Identifier := assignedId c.id n } = none) :
    send c n w = { c with id := nextId c.id n.Identifier } := by
  unfold send
  rw [h]

/-- Window containment in the write trace is preserved by `Send`. -/
lemma send_sent_sub (c : ClientState) (n : Notification) (w : List Bool)
    (h : ∀ x ∈ c.sent, x ∈ c.written) :
    ∀ x ∈ (send c n w).sent, x ∈ (send c n w).written := by
  induction w generalizing c n with
  | nil =>
    unfold send
    cases hb : ToBinary { n with Identifier := assignedId c.id n } with
    | none => exact h
    | some bs => exact h
  | cons b rest ih =>
    unfold send
    cases hb : ToBinary { n with Identifier := assignedId c.id n } with
    | none => exact h
    | some bs =>
      cases b with
      | true =>
        intro x hx
        rcases mem_bufferAdd _ _ _ _ hx with h1 | h2
        · exact List.mem_append_left _ (h x h1)
        · exact List.mem_append_right _ (by simp [h2])
      | false => exact ih _ _ h

/-- If every write attempt fails, `Send` leaves both the window and the
write trace untouched. -/
lemma send_sent_allFalse (c : ClientState) (n : Notification) (w : List Bool)
    (hw : ∀ b ∈ w, b = false) :
    (send c n w).sent = c.sent ∧ (send c n w).written = c.written := by
  induction w generalizing c n with
  | nil =>
    unfold send
    cases hb : ToBinary { n with Identifier := assignedId c.id n } with
    | none => exact ⟨rfl, rfl⟩
    | some bs => exact ⟨rfl, rfl⟩
  | cons b rest ih =>
    have hb0 : b = false := hw b (by simp)
    subst hb0
    unfold send
    cases hb : ToBinary { n with Identifier := assignedId c.id n } with
    | none => exact ⟨rfl, rfl⟩
    | some bs => exact ih _ _ fun x hx => hw x (by simp [hx])

/-- Window containment in the write trace is preserved by any sequence
of `Send` calls. -/
lemma sendAll_sent_sub (inputs : List (Notification × List Bool)) (c : ClientState)
    (h : ∀ x ∈ c.sent, x ∈ c.written) :
    ∀ x ∈ (sendAll c inputs).sent, x ∈ (sendAll c inputs).written := by
  induction inputs generalizing c with
  | nil => exact h
  | cons q rest ih => exact ih _ (send_sent_sub _ _ _ h)

/-- Any sequence of `buffer.Add` operations keeps the buffer within its
size bound. -/
lemma foldl_bufferAdd_le {α : Type _} (vs : List α) (l : List α) (h : l.length ≤ 1000) :
    (List.foldl (bufferAdd 1000) l vs).length ≤ 1000 := by
  induction vs generalizing l with
  | nil => simpa using h
  | cons v rest ih => exact ih _ (length_bufferAdd_le _ _ _ h)

/-- Under the monotone submission discipline the write trace stays
strictly increasing, and the counter stays strictly above every written
identifier. -/
lemma sendAll_monotone (inputs : List (Notification × List Bool)) (c : ClientState)
    (h1 : 1 ≤ c.id)
    (h2 : ∀ m ∈ c.written, m.Identifier < c.id)
    (h3 : List.Pairwise (fun a b => a.Identifier < b.Identifier) c.written)
    (hm : monotoneInputs c.id inputs = true) :
    List.Pairwise (fun a b => a.Identifier < b.Identifier) (sendAll c inputs).written ∧
    ∀ m ∈ (sendAll c inputs).written, m.Identifier < (sendAll c inputs).id := by
  induction inputs generalizing c with
  | nil => exact ⟨h3, h2⟩
  | cons q rest ih =>
    obtain ⟨n, w⟩ := q
    unfold monotoneInputs at hm
    by_cases h0 : n.Identifier = 0
    · rw [if_pos h0] at hm
      simp only [Bool.and_eq_true, decide_eq_true_eq] at hm
      have ha : assignedId c.id n ≠ 0 := by unfold assignedId; rw [if_pos h0]; omega
      have hid : (send c n w).id = c.id + 1 := by
        rw [send_id c n w ha]; unfold nextId; rw [if_pos h0]
        exact Nat.mod_eq_of_lt hm.1
      have haid : assignedId c.id n = c.id := by unfold assignedId; rw [if_pos h0]
      rcases send_write_cases c n w ha with ⟨hs, hw⟩ | ⟨hs, hw⟩
      · refine ih (send c n w) (by omega) ?_ ?_ ?_
        · rw [hw, hid]; exact fun m hmm => Nat.lt_succ_of_lt (h2 m hmm)
        · rw [hw]; exact h3
        · rw [hid]; exact hm.2
      · refine ih (send c n w) (by omega) ?_ ?_ ?_
        · rw [hw, hid, haid]
          intro m hmm
          rcases List.mem_append.mp hmm with hmo | hmn
          · exact Nat.lt_succ_of_lt (h2 m hmo)
          · simp at hmn; subst hmn; simp
        · rw [hw, haid]
          rw [List.pairwise_append]
          refine ⟨h3, by simp, ?_⟩
          intro a hma b hmb
          simp at hmb; subst hmb
          simpa using h2 a hma
        · rw [hid]; exact hm.2
    · rw [if_neg h0] at hm
      simp only [Bool.and_eq_true, decide_eq_true_eq] at hm
      obtain ⟨⟨hlt, hnw⟩, hrest⟩ := hm
      have ha : assignedId c.id n ≠ 0 := by unfold assignedId; rw [if_neg h0]; exact h0
      have hid : (send c n w).id = n.Identifier + 1 := by
        rw [send_id c n w ha]; unfold nextId; rw [if_neg h0, if_pos hlt]
        exact Nat.mod_eq_of_lt hnw
      have haid : assignedId c.id n = n.Identifier := by unfold assignedId; rw [if_neg h0]
      rcases send_write_cases c n w ha with ⟨hs, hw⟩ | ⟨hs, hw⟩
      · refine ih (send c n w) (by omega) ?_ ?_ ?_
        · rw [hw, hid]; exact fun m hmm => by have := h2 m hmm; omega
        · rw [hw]; exact h3
        · rw [hid]; exact hrest
      · refine ih (send c n w) (by omega) ?_ ?_ ?_
        · rw [hw, hid, haid]
          intro m hmm
          rcases List.mem_append.mp hmm with hmo | hmn
          · have := h2 m hmo; omega
          · simp at hmn; subst hmn; simp
        · rw [hw, haid]
          rw [List.pairwise_append]
          refine ⟨h3, by simp, ?_⟩
          intro a hma b hmb
          simp at hmb; subst hmb
          simp
          have := h2 a hma; omega
        · rw [hid]; exact hrest

/-- Short of 32-bit wraparound, the counter stays positive and every
window entry keeps a non-zero identifier. -/
lemma sendAll_nonzero (inputs : List (Notification × List Bool)) (c : ClientState)
    (h1 : 1 ≤ c.id)
    (h2 : ∀ x ∈ c.sent, x.Identifier ≠ 0)
    (hm : noWrap32 c.id inputs = true) :
    1 ≤ (sendAll c inputs).id ∧ ∀ x ∈ (sendAll c inputs).sent, x.Identifier ≠ 0 := by
  induction inputs generalizing c with
  | nil => exact ⟨h1, h2⟩
  | cons q rest ih =>
    obtain ⟨n, w⟩ := q
    unfold noWrap32 at hm
    have ha : assignedId c.id n ≠ 0 := by
      unfold assignedId; split
      · omega
      · assumption
    have hsent : ∀ x ∈ (send c n w).sent, x.Identifier ≠ 0 := by
      rcases send_write_cases c n w ha with ⟨hs, hw⟩ | ⟨hs, hw⟩
      · rw [hs]; exact h2
      · rw [hs]
        intro x hx
        rcases mem_bufferAdd _ _ _ _ hx with hxo | hxn
        · exact h2 x hxo
        · subst hxn; simpa using ha
    by_cases h0 : n.Identifier = 0
    · rw [if_pos h0] at hm
      simp only [Bool.and_eq_true, decide_eq_true_eq] at hm
      have hid : (send c n w).id = c.id + 1 := by
        rw [send_id c n w ha]; unfold nextId; rw [if_pos h0]
        exact Nat.mod_eq_of_lt hm.1
      exact ih (send c n w) (by omega) hsent (by rw [hid]; exact hm.2)
    · rw [if_neg h0] at hm
      by_cases hlt : c.id < n.Identifier
      · rw [if_pos hlt] at hm
        simp only [Bool.and_eq_true, decide_eq_true_eq] at hm
        have hid : (send c n w).id = n.Identifier + 1 := by
          rw [send_id c n w ha]; unfold nextId; rw [if_neg h0, if_pos hlt]
          exact Nat.mod_eq_of_lt hm.1
        exact ih (send c n w) (by omega) hsent (by rw [hid]; exact hm.2)
      · rw [if_neg hlt] at hm
        have hid : (send c n w).id = c.id := by
          rw [send_id c n w ha]; unfold nextId; rw [if_neg h0, if_neg hlt]
        exact ih (send c n w) (by omega) hsent (by rw [hid]; exact hm)

/-- C1: when the error-reader reads a 6-byte error-response whose
identifier matches some notification in the sent window, the window is
scanned from newest to oldest, exactly the (newest) matching
notification together with the decoded error is delivered to the
failed-notifications channel, it is removed from the window, and every
notification that follows it in the window is resubmitted via `send`,
from the oldest survivor to the newest, in that order. -/
theorem C1_error_match_resend (c : ClientState) (p : List Nat)
    (h : ∃ x ∈ c.sent, x.Identifier = (NewError p).Identifier) :
    ∃ pre m suf,
      c.sent = pre ++ m :: suf ∧
      m.Identifier = (NewError p).Identifier ∧
      (∀ x ∈ suf, x.Identifier ≠ (NewError p).Identifier) ∧
      (readErrs c (some p)).1.sent = pre ++ suf ∧
      (readErrs c (some p)).1.failed = c.failed ++ [(m, NewError p)] ∧
      (readErrs c (some p)).2 = suf := by
  cases hs : splitAtNewestMatch c.sent (NewError p).Identifier with
  | none =>
    obtain ⟨x, hx, he⟩ := h
    exact absurd he ((splitAtNewestMatch_eq_none _ _).mp hs x hx)
  | some q =>
    obtain ⟨pre, m, suf⟩ := q
    obtain ⟨e1, e2, e3⟩ := splitAtNewestMatch_spec _ _ _ _ _ hs
    refine ⟨pre, m, suf, e1, e2, e3, ?_, ?_, ?_⟩ <;> simp [readErrs, hs]

/-- C1 witness: a window holding notifications 1, 2, 3 receives the
error-response packet 08 08 00 00 00 02 — notification 2 is reported
and removed, and notification 3 (alone) is resent. -/
theorem C1_witness :
    ∃ pre m suf,
      c1State.sent = pre ++ m :: suf ∧
      m.Identifier = (NewError [8, 8, 0, 0, 0, 2]).Identifier ∧
      (∀ x ∈ suf, x.Identifier ≠ (NewError [8, 8, 0, 0, 0, 2]).Identifier) ∧
      (readErrs c1State (some [8, 8, 0, 0, 0, 2])).1.sent = pre ++ suf ∧
      (readErrs c1State (some [8, 8, 0, 0, 0, 2])).1.failed =
        c1State.failed ++ [(m, NewError [8, 8, 0, 0, 0, 2])] ∧
      (readErrs c1State (some [8, 8, 0, 0, 0, 2])).2 = suf :=
  C1_error_match_resend c1State [8, 8, 0, 0, 0, 2] (by decide)


/-- C2 counterexample: submitting a non-zero identifier equal to the
counter (here both are 1, on a fresh client) leaves the counter at 1 —
the counter does not advance past the submitted identifier. -/
theorem C2_counterexample :
    (mkNotif 1).Identifier ≠ 0 ∧
    (send initClient (mkNotif 1) [true]).id = initClient.id ∧
    ¬ (mkNotif 1).Identifier < (send initClient (mkNotif 1) [true]).id := by decide

/-- C2 amended: a zero submitted identifier receives the counter value
and the counter advances by one (modulo 2^32); a non-zero submitted
identifier is kept unchanged, and the counter advances past it only
when it strictly exceeds the counter — when it equals the counter, the
counter is left unchanged. -/
theorem C2_identifier_assignment (c : ClientState) (n : Notification) (w : List Bool)
    (h : 1 ≤ c.id) :
    ((send c n w).written = c.written ∨
     (send c n w).written = c.written ++ [{ n with Identifier := assignedId c.id n }]) ∧
    (n.Identifier = 0 → assignedId c.id n = c.id ∧ (send c n w).id = (c.id + 1) % U32) ∧
    (n.Identifier ≠ 0 → assignedId c.id n = n.Identifier ∧
      (send c n w).id = if c.id < n.Identifier then (n.Identifier + 1) % U32 else c.id) := by
  have ha : assignedId c.id n ≠ 0 := by
    unfold assignedId; split
    · omega
    · assumption
  refine ⟨?_, ?_, ?_⟩
  · rcases send_write_cases c n w ha with ⟨hs, hw⟩ | ⟨hs, hw⟩
    · exact Or.inl hw
    · exact Or.inr hw
  · intro h0
    refine ⟨by simp [assignedId, h0], ?_⟩
    rw [send_id c n w ha]; simp [nextId, h0]
  · intro h0
    refine ⟨by simp [assignedId, h0], ?_⟩
    rw [send_id c n w ha]; simp [nextId, h0]

/-- C2 witness: the amended statement evaluated on a fresh client and a
zero-identifier submission. -/
theorem C2_witness :
    ((send initClient (mkNotif 0) [true]).written = initClient.written ∨
     (send initClient (mkNotif 0) [true]).written =
       initClient.written ++ [{ mkNotif 0 with Identifier := assignedId initClient.id (mkNotif 0) }]) ∧
    ((mkNotif 0).Identifier = 0 → assignedId initClient.id (mkNotif 0) = initClient.id ∧
      (send initClient (mkNotif 0) [true]).id = (initClient.id + 1) % U32) ∧
    ((mkNotif 0).Identifier ≠ 0 → assignedId initClient.id (mkNotif 0) = (mkNotif 0).Identifier ∧
      (send initClient (mkNotif 0) [true]).id =
        if initClient.id < (mkNotif 0).Identifier then ((mkNotif 0).Identifier + 1) % U32
        else initClient.id) :=
  C2_identifier_assignment initClient (mkNotif 0) [true] (by decide)

/-- C3 counterexample: sending identifier 5 and then identifier 3 (both
user-supplied) writes 5 followed by 3 on the wire — written identifiers
are not strictly increasing, and the second is not greater than any
prior. -/
theorem C3_counterexample :
    ¬ List.Pairwise (fun a b => a.Identifier < b.Identifier)
        (sendAll initClient [(mkNotif 5, [true]), (mkNotif 3, [true])]).written := by decide

/-- C3 amended: across any sequence of `Send` calls in which every
submitted identifier is zero or strictly exceeds the counter at its
submission time (and the counter never wraps modulo 2^32), the
identifiers written to the wire are strictly increasing, and the
internal counter stays strictly above every written identifier — it
jumps past any user-supplied identifier exceeding it.  A user-supplied
identifier that does not exceed the counter is written as-is and can
break monotonicity. -/
theorem C3_monotonicity (inputs : List (Notification × List Bool))
    (hm : monotoneInputs 1 inputs = true) :
    List.Pairwise (fun a b => a.Identifier < b.Identifier) (sendAll initClient inputs).written ∧
    ∀ m ∈ (sendAll initClient inputs).written,
      m.Identifier < (sendAll initClient inputs).id :=
  sendAll_monotone inputs initClient (by decide) (by simp [initClient]) (by simp [initClient]) hm

/-- C3 witness: an auto-assigned send, a user send with identifier 5,
then another auto-assigned send write 1, 5, 6 — strictly increasing. -/
theorem C3_witness :
    List.Pairwise (fun a b => a.Identifier < b.Identifier)
      (sendAll initClient [(mkNotif 0, [true]), (mkNotif 5, [true]), (mkNotif 0, [true])]).written ∧
    ∀ m ∈ (sendAll initClient [(mkNotif 0, [true]), (mkNotif 5, [true]), (mkNotif 0, [true])]).written,
      m.Identifier <
        (sendAll initClient [(mkNotif 0, [true]), (mkNotif 5, [true]), (mkNotif 0, [true])]).id :=
  C3_monotonicity [(mkNotif 0, [true]), (mkNotif 5, [true]), (mkNotif 0, [true])] (by decide)

/-- C4: for every sequence of `Add` operations on the sent-window
buffer of capacity 1000 (the size `newClientWithConn` fixes), the
buffer never holds more than 1000 entries, and an `Add` to a full
buffer discards exactly the front (oldest) entry. -/
theorem C4_window_bound :
    (∀ vs : List Notification, (List.foldl (bufferAdd 1000) [] vs).length ≤ 1000) ∧
    (∀ (l : List Notification) (v : Notification), l.length = 1000 →
      bufferAdd 1000 l v = l.tail ++ [v]) := by
  constructor
  · intro vs
    exact foldl_bufferAdd_le vs [] (by simp)
  · intro l v h
    unfold bufferAdd
    rw [if_pos (by simp [h])]
    cases l with
    | nil => simp at h
    | cons a t => simp

/-- C4 witness: the bound evaluated on a singleton sequence, and the
overflow behaviour on a full buffer of 1000 entries. -/
theorem C4_witness :
    (List.foldl (bufferAdd 1000) [] [mkNotif 1]).length ≤ 1000 ∧
    bufferAdd 1000 (List.replicate 1000 (mkNotif 1)) (mkNotif 2) =
      (List.replicate 1000 (mkNotif 1)).tail ++ [mkNotif 2] :=
  ⟨C4_window_bound.1 [mkNotif 1], C4_window_bound.2 _ _ (List.length_replicate 1000 (mkNotif 1))⟩


/-- C5: a notification whose encoding fails is never added to the
window; a notification none of whose write attempts succeeds is never
added to the window; and after any sequence of `Send` calls from a
fresh client, every notification in the window is one whose frame
write completed successfully (it appears in the write trace). -/
theorem C5_window_only_written :
    (∀ (c : ClientState) (n : Notification) (w : List Bool),
      ToBinary { n with Identifier := assignedId c.id n } = none →
      (send c n w).sent = c.sent) ∧
    (∀ (c : ClientState) (n : Notification) (w : List Bool),
      (∀ b ∈ w, b = false) → (send c n w).sent = c.sent) ∧
    (∀ (inputs : List (Notification × List Bool)),
      ∀ x ∈ (sendAll initClient inputs).sent, x ∈ (sendAll initClient inputs).written) := by
  refine ⟨?_, ?_, ?_⟩
  · intro c n w h
    rw [send_encodeFail c n w h]
  · intro c n w h
    exact (send_sent_allFalse c n w h).1
  · intro inputs
    exact sendAll_sent_sub inputs initClient (by simp [initClient])

/-- C5 witness: an encoding failure adds nothing, a failed write adds
nothing, and after one successful send the single window entry is in
the write trace. -/
theorem C5_witness :
    (send initClient nBadPrio [true]).sent = initClient.sent ∧
    (send initClient (mkNotif 1) [false]).sent = initClient.sent ∧
    mkNotif 1 ∈ (sendAll initClient [(mkNotif 0, [true])]).written :=
  ⟨C5_window_only_written.1 initClient nBadPrio [true] (by decide),
   C5_window_only_written.2.1 initClient (mkNotif 1) [false] (by decide),
   C5_window_only_written.2.2 [(mkNotif 0, [true])] (mkNotif 1) (by decide)⟩

/-- C6: when the decoded error-response identifier matches no window
entry, nothing is delivered to the failed-notifications channel, no
entry is removed from the window, and nothing is resent. -/
theorem C6_no_match_noop (c : ClientState) (p : List Nat)
    (h : ∀ x ∈ c.sent, x.Identifier ≠ (NewError p).Identifier) :
    (readErrs c (some p)).1.sent = c.sent ∧
    (readErrs c (some p)).1.failed = c.failed ∧
    (readErrs c (some p)).2 = [] := by
  have hs : splitAtNewestMatch c.sent (NewError p).Identifier = none :=
    (splitAtNewestMatch_eq_none _ _).mpr h
  refine ⟨?_, ?_, ?_⟩ <;> simp [readErrs, hs]

/-- C6 witness: a window holding notifications 1, 2, 3 receives an
error-response for identifier 9 — nothing changes, nothing resends. -/
theorem C6_witness :
    (readErrs c1State (some [8, 8, 0, 0, 0, 9])).1.sent = c1State.sent ∧
    (readErrs c1State (some [8, 8, 0, 0, 0, 9])).1.failed = c1State.failed ∧
    (readErrs c1State (some [8, 8, 0, 0, 0, 9])).2 = [] :=
  C6_no_match_noop c1State [8, 8, 0, 0, 0, 9] (by decide)

/-- C7: when the frame write fails, `Send` triggers reconnection and
re-enters `Send` with the same identifier-assigned notification; the
failed attempt delivers nothing to the failed-notifications channel
and adds nothing to the sent window. -/
theorem C7_write_failure_resend (c : ClientState) (n : Notification) (rest : List Bool)
    (h : (ToBinary { n with Identifier := assignedId c.id n }).isSome = true) :
    send c n (false :: rest) =
      send { c with id := nextId c.id n.Identifier, reconnects := c.reconnects + 1 }
        { n with Identifier := assignedId c.id n } rest ∧
    (send c n (false :: rest)).failed = c.failed ∧
    ({ c with id := nextId c.id n.Identifier,
              reconnects := c.reconnects + 1 } : ClientState).sent = c.sent := by
  obtain ⟨bs, hb⟩ := Option.isSome_iff_exists.mp h
  refine ⟨?_, send_failed _ _ _, rfl⟩
  conv_lhs => unfold send
  rw [hb]

/-- C7 witness: the write-failure behaviour evaluated on a fresh client
with one failed then one successful write. -/
theorem C7_witness :
    send initClient (mkNotif 0) (false :: [true]) =
      send { initClient with id := nextId initClient.id (mkNotif 0).Identifier,
                             reconnects := initClient.reconnects + 1 }
        { mkNotif 0 with Identifier := assignedId initClient.id (mkNotif 0) } [true] ∧
    (send initClient (mkNotif 0) (false :: [true])).failed = initClient.failed ∧
    ({ initClient with id := nextId initClient.id (mkNotif 0).Identifier,
                       reconnects := initClient.reconnects + 1 } : ClientState).sent =
      initClient.sent :=
  C7_write_failure_resend initClient (mkNotif 0) [true] (by decide)

/-- C8 counterexample: a notification with invalid priority fails to
encode, yet nothing is delivered to the failed-notifications channel —
the source only logs and returns, contradicting the claim that the
failure is reported. -/
theorem C8_counterexample :
    ToBinary { nBadPrio with Identifier := assignedId initClient.id nBadPrio } = none ∧
    (send initClient nBadPrio [true]).failed = initClient.failed ∧
    initClient.failed = [] := by decide

/-- C8 amended: when encoding fails, the failure is permanent and the
notification is silently dropped (only logged): `Send` returns without
reporting it on the failed-notifications channel, writes no bytes, adds
nothing to the window, and triggers no reconnection; only the
identifier counter has advanced. -/
theorem C8_encoding_failure_silent (c : ClientState) (n : Notification) (w : List Bool)
    (h : ToBinary { n with Identifier := assignedId c.id n } = none) :
    (send c n w).sent = c.sent ∧
    (send c n w).written = c.written ∧
    (send c n w).failed = c.failed ∧
    (send c n w).reconnects = c.reconnects ∧
    (send c n w).id = nextId c.id n.Identifier := by
  rw [send_encodeFail c n w h]
  exact ⟨rfl, rfl, rfl, rfl, rfl⟩

/-- C8 witness: the amended statement evaluated on the concrete
invalid-priority notification. -/
theorem C8_witness :
    (send initClient nBadPrio [true]).sent = initClient.sent ∧
    (send initClient nBadPrio [true]).written = initClient.written ∧
    (send initClient nBadPrio [true]).failed = initClient.failed ∧
    (send initClient nBadPrio [true]).reconnects = initClient.reconnects ∧
    (send initClient nBadPrio [true]).id = nextId initClient.id nBadPrio.Identifier :=
  C8_encoding_failure_silent initClient nBadPrio [true] (by decide)

/-- C9: when the error-reader read fails with a transport error, a
reconnection is triggered and the reader exits delivering nothing: the
failed-notifications channel, the sent window and the write trace are
untouched, and nothing is resent. -/
theorem C9_read_error_noop (c : ClientState) :
    (readErrs c none).1.sent = c.sent ∧
    (readErrs c none).1.failed = c.failed ∧
    (readErrs c none).1.written = c.written ∧
    (readErrs c none).1.reconnects = c.reconnects + 1 ∧
    (readErrs c none).2 = [] :=
  ⟨rfl, rfl, rfl, rfl, rfl⟩

/-- C10: short of 32-bit counter wraparound, every window entry carries
a non-zero identifier (the counter starts at 1 and a zero submitted
identifier is replaced by the counter before the write), so an
error-response with identifier 0 can never match a window entry. -/
theorem C10_window_nonzero_identifiers (inputs : List (Notification × List Bool))
    (hm : noWrap32 1 inputs = true) :
    (∀ x ∈ (sendAll initClient inputs).sent, x.Identifier ≠ 0) ∧
    splitAtNewestMatch (sendAll initClient inputs).sent 0 = none := by
  have h := sendAll_nonzero inputs initClient (by decide) (by simp [initClient]) hm
  exact ⟨h.2, (splitAtNewestMatch_eq_none _ _).mpr h.2⟩

/-- C10 witness: after an auto-assigned send and a user send with
identifier 7, no window entry has identifier 0 and identifier 0
matches nothing. -/
theorem C10_witness :
    (∀ x ∈ (sendAll initClient [(mkNotif 0, [true]), (mkNotif 7, [true])]).sent,
      x.Identifier ≠ 0) ∧
    splitAtNewestMatch (sendAll initClient [(mkNotif 0, [true]), (mkNotif 7, [true])]).sent 0 =
      none :=
  C10_window_nonzero_identifiers [(mkNotif 0, [true]), (mkNotif 7, [true])] (by decide)

end Apns
